import Mathlib

/-!
# Verification of the interface-forge schema resolution and build engine

This file gives a shallow embedding, in Lean 4, of the core of the
interface-forge mock-data library: the deep-merge algorithm
(src/src/fixture-factory.ts, function merge), the required-argument
validator and the asynchronous schema walker of the legacy engine
(src/src/type-factory.ts), the cyclic generator (TypeFactory.iterate),
and the counter / batch façade of both the legacy engine
(src/src/type-factory.ts) and the newer engine
(src/unnamed/part_010, class TypeFactory with preBuild / postBuild /
buildSync / batchSync).

JavaScript values are modelled by the inductive type SVal below.  Two
runtime value kinds of the source are outside the embedded domain and
are noted where relevant: nested engine instances held as schema values
and deferred references (class Ref); no theorem in this file quantifies
over them, and no claim under verification does either.

Modules of the newer engine that are imported by src/unnamed/part_010
but whose sources are not part of the repository snapshot
(src/constants.ts, src/helpers.ts, src/utils/options.ts,
src/utils/schema.ts, src/utils/validators.ts) are modelled from the
specification; every such definition carries a doc comment starting
with "Modelled from the spec:".
-/

set_option autoImplicit false

namespace InterfaceForge

/--
A JavaScript runtime value as it can occur in a factory schema tree:
null, undefined, booleans, numbers (modelled as integers), strings,
Date instances (modelled by their timestamp), arrays, plain objects
(ordered association lists of string keys, as JS objects preserve
insertion order), the two sentinel marker instances (BuildArgProxy
produced by TypeFactory.required and DerivedValueProxy produced by
TypeFactory.derived), generator objects as produced by
TypeFactory.iterate (backing list plus cursor), and promises.
-/
inductive SVal where
  | vNull
  | vUndef
  | vBool (b : Bool)
  | vInt (n : Int)
  | vStr (s : String)
  | vDate (t : Int)
  | vArr (xs : List SVal)
  | vObj (fs : List (String × SVal))
  | vReq
  | vDerived
  | vGen (els : List SVal) (cursor : Nat)
  | vPromise (v : SVal)
deriving Repr

namespace SVal

/-- Property read obj[key]: the first entry with the given key, if any
(JS objects cannot actually hold duplicate keys; first-match lookup is
the identity semantics on well-formed objects). -/
def getField (fs : List (String × SVal)) (k : String) : Option SVal :=
  match fs with
  | [] => none
  | (k1, v) :: rest => if k1 = k then some v else getField rest k

/-- Property write obj[key] = v: replaces the value of an existing key
in place, otherwise appends the new entry (JS insertion-order
semantics). -/
def setField (fs : List (String × SVal)) (k : String) (v : SVal) :
    List (String × SVal) :=
  match fs with
  | [] => [(k, v)]
  | (k1, v1) :: rest =>
    if k1 = k then (k1, v) :: rest else (k1, v1) :: setField rest k v

/-- Reflect.has(obj, key) restricted to own entries of a plain object. -/
def hasKey (fs : List (String × SVal)) (k : String) : Bool :=
  match fs with
  | [] => false
  | (k1, _) :: rest => k1 = k || hasKey rest k

/-- isRecord (from the external type-predicates package, as specified:
a plain record of key to value, excluding arrays, dates, and the
special marker / reference / generator types). -/
def isRecord : SVal → Bool
  | vObj _ => true
  | _ => false

end SVal

open SVal

mutual
/--
The per-key rule of the merge loop (src/src/fixture-factory.ts lines
148-156): when both the existing output value at the key and the
incoming source value are records, the two are merged recursively (the
recursive merge(targetValue, sourceValue) call of the source, which
for two records always takes the record branch and cannot throw);
otherwise the incoming value replaces the existing one.
-/
def mergedValue (tv : Option SVal) (sv : SVal) : SVal :=
  match tv, sv with
  | some (SVal.vObj tf), SVal.vObj sf => SVal.vObj (mergeFields tf sf)
  | _, _ => sv
/--
The source loop of merge (src/src/fixture-factory.ts, lines 141-157)
specialised to one mapping-typed source: each key of the source is
written into the output in order, with the per-key rule mergedValue
deciding between recursive merge and replacement.
-/
def mergeFields (out : List (String × SVal)) (src : List (String × SVal)) :
    List (String × SVal) :=
  match src with
  | [] => out
  | (k, sv) :: rest =>
    mergeFields (setField out k (mergedValue (getField out k) sv)) rest
end

/-- A merge failure: the source throws
"Cannot merge objects into a non-object target". -/
inductive MergeErr where
  | mergeTypeConflict
deriving DecidableEq, Repr

/--
merge(target, ...sources) from src/src/fixture-factory.ts lines
123-160.  A non-record target is returned unchanged when every source
fails the filter isRecord(source) and Object.keys(source).length > 0,
and the merge throws when some source passes it; a record target is
copied and each record source is folded in left to right (non-record
sources are skipped by the continue).
-/
def merge (target : SVal) (sources : List SVal) : Except MergeErr SVal :=
  match target with
  | SVal.vObj tf =>
    Except.ok (SVal.vObj (sources.foldl
      (fun out s =>
        match s with
        | SVal.vObj sf => mergeFields out sf
        | _ => out) tf))
  | t =>
    if sources.any (fun s =>
        match s with
        | SVal.vObj sf => !sf.isEmpty
        | _ => false) then
      Except.error MergeErr.mergeTypeConflict
    else
      Except.ok t

/-- Failures raised by the engine (JS thrown errors, by kind). -/
inductive JsErr where
  /-- A TypeError: value.next was called but is not a function. -/
  | typeError
  /-- The aggregated missing-required-build-arguments error, carrying
  the full message string built by the validator. -/
  | missingBuildArgs (msg : String)
  /-- ERROR_MESSAGES.PROMISE_DEFAULTS: defaults resolved to a promise
  in sync mode. -/
  | promiseDefaults
  /-- ERROR_MESSAGES.PROMISE_OVERRIDES: overrides resolved to a promise
  in sync mode. -/
  | promiseOverrides
  /-- ERROR_MESSAGES.PROMISE_FACTORY: the post-build factory function
  returned a promise in sync mode. -/
  | promiseFactory
  /-- ERROR_MESSAGES.PROMISE_VALUE: a schema value was a promise in
  sync mode, carrying the offending key. -/
  | promiseValue (key : String)
  /-- The merge type conflict re-raised through the build pipeline. -/
  | mergeConflict
  /-- A sentinel marker survived into the resolved output. -/
  | markerInResult
deriving DecidableEq, Repr

/--
The key-accumulation loop of validate_schema
(src/src/type-factory.ts lines 57-62): Object.entries(schema).forEach
pushes the key of every value that is a BuildArgProxy instance, in
order.  Only the top level of the schema is inspected.
-/
def missing_values (fs : List (String × SVal)) : List String :=
  fs.foldl
    (fun acc kv =>
      match kv.2 with
      | SVal.vReq => acc ++ [kv.1]
      | _ => acc) []

/--
validate_schema from src/src/type-factory.ts lines 56-70: collects the
top-level keys bound to BuildArgProxy instances and, if any were found,
throws a single error joining them with ", "; otherwise the schema
passes through unchanged.
-/
def validate_schema (fs : List (String × SVal)) :
    Except JsErr (List (String × SVal)) :=
  let missingValues := missing_values fs
  if missingValues.isEmpty then Except.ok fs
  else
    Except.error (JsErr.missingBuildArgs
      ("[interface-forge] missing required build arguments: " ++
        String.intercalate ", " missingValues))

/-- The flattening effect of await on a value
(await Promise.resolve(x) yields the innermost non-promise value). -/
def awaited : SVal → SVal
  | SVal.vPromise w => awaited w
  | v => v

/--
Modelled from the spec: the duck-typed generator test of the walker.
The helper isOfType from src/utils is not part of the repository
snapshot; per the specification (section 9), anything object-typed
exposing a next-shaped member is treated as a Cyclic Generator, which
can accidentally match unrelated values with a similarly-shaped
member.  Generator objects match; so does a plain object that happens
to own a key "next"; arrays, dates, marker instances and primitives do
not expose such a member.
-/
def hasNextShape : SVal → Bool
  | SVal.vGen _ _ => true
  | SVal.vObj fs => hasKey fs "next"
  | _ => false

mutual
/--
Resolution of one schema value by the asynchronous walker parse_schema
of src/src/type-factory.ts lines 29-54.  The raw value is first
awaited; then, in source order: values with a next-shaped member are
treated as generators and advanced (for a real generator produced by
iterate this yields the backing element at the cursor, itself awaited;
for a plain object owning a data key "next" the value.next() call is a
TypeError); other non-array non-null object-typed values are recursed
into via Object.entries (for Date and marker instances the entry list
is empty, so the recursion returns the empty object); everything else
(null, undefined, booleans, numbers, strings, arrays) is copied
through as a literal.  Nested engine instances and Ref values, the two
remaining source branches, are outside the embedded value domain and
no claim quantifies over them.
-/
def parse_value (raw : SVal) (iteration : Nat) : Except JsErr SVal :=
  match raw with
  | SVal.vPromise w => parse_value w iteration
  | SVal.vGen els cur =>
    Except.ok (awaited ((els.get? cur).getD SVal.vUndef))
  | SVal.vObj fs =>
    if hasKey fs "next" then Except.error JsErr.typeError
    else (parse_entries fs iteration).map SVal.vObj
  | SVal.vDate _ => Except.ok (SVal.vObj [])
  | SVal.vReq => Except.ok (SVal.vObj [])
  | SVal.vDerived => Except.ok (SVal.vObj [])
  | lit => Except.ok lit
/--
The entry loop of parse_schema: each key of the schema is resolved in
insertion order into a fresh output object; a thrown error aborts the
whole resolution.
-/
def parse_entries (fs : List (String × SVal)) (iteration : Nat) :
    Except JsErr (List (String × SVal)) :=
  match fs with
  | [] => Except.ok []
  | (k, v) :: rest => do
    let pv ← parse_value v iteration
    let prest ← parse_entries rest iteration
    Except.ok ((k, pv) :: prest)
end

mutual
/--
Modelled from the spec: the synchronous walker duplicate.  The newer
engine's parseFactorySchema (src/utils/schema.ts) is not part of the
repository snapshot; per the specification (section 9) the sync and
async walkers are two near-identical code paths gated by a boolean,
where a promise raises a sync-contract error carrying the offending
key instead of being awaited (section 4.3).  All other branches mirror
parse_value.
-/
def parse_value_sync (k : String) (raw : SVal) (iteration : Nat) :
    Except JsErr SVal :=
  match raw with
  | SVal.vPromise _ => Except.error (JsErr.promiseValue k)
  | SVal.vGen els cur =>
    match (els.get? cur).getD SVal.vUndef with
    | SVal.vPromise _ => Except.error (JsErr.promiseValue k)
    | y => Except.ok y
  | SVal.vObj fs =>
    if hasKey fs "next" then Except.error JsErr.typeError
    else (parse_entries_sync fs iteration).map SVal.vObj
  | SVal.vDate _ => Except.ok (SVal.vObj [])
  | SVal.vReq => Except.ok (SVal.vObj [])
  | SVal.vDerived => Except.ok (SVal.vObj [])
  | lit => Except.ok lit
/--
Modelled from the spec: the entry loop of the synchronous walker,
mirroring parse_entries with the key passed down for promise
diagnostics.
-/
def parse_entries_sync (fs : List (String × SVal)) (iteration : Nat) :
    Except JsErr (List (String × SVal)) :=
  match fs with
  | [] => Except.ok []
  | (k, v) :: rest => do
    let pv ← parse_value_sync k v iteration
    let prest ← parse_entries_sync rest iteration
    Except.ok ((k, pv) :: prest)
end

/--
One advance of the generator produced by TypeFactory.iterate
(src/src/type-factory.ts lines 123-136): yields list[counter] (none
models the undefined read past the end of an empty list) and moves the
cursor forward, wrapping to 0 from the last index.
-/
def iterateStep {α : Type} (list : List α) (counter : Nat) :
    Option α × Nat :=
  (list.get? counter, if counter = list.length - 1 then 0 else counter + 1)

/-- The cursor of an iterate generator after n advances, starting from
the initial cursor 0. -/
def iterateCursor {α : Type} (list : List α) : Nat → Nat
  | 0 => 0
  | n + 1 => (iterateStep list (iterateCursor list n)).2

/-- The value yielded by the n-th advance (n is 1-based) of an iterate
generator: the backing element at the cursor reached after n - 1
advances. -/
def iterateYield {α : Type} (list : List α) (n : Nat) : Option α :=
  (iterateStep list (iterateCursor list (n - 1))).1

/--
Modelled from the spec: one advance of the generator produced by
sample (src/helpers.ts is not part of the repository snapshot).  Per
the specification (section 4.6) the backing list is materialized once;
each advance picks a uniformly random element of the backing list
excluding the immediately-previously-yielded element, except that a
backing list of length at most 1 relaxes the exclusion (repeating the
single element instead of stalling).  The random draw is modelled by
an arbitrary natural number r indexing the candidate list; none models
the unsatisfiable case of an empty candidate list.
-/
def sampleStep {α : Type} [DecidableEq α] (values : List α)
    (prev : Option α) (r : Nat) : Option α :=
  let candidates :=
    match prev with
    | none => values
    | some p =>
      if values.length ≤ 1 then values
      else values.filter (fun x => decide (x ≠ p))
  candidates.get? (r % candidates.length)

/-- isPromise from the external type-predicates package: recognizes
promise values. -/
def isPromiseV : SVal → Bool
  | SVal.vPromise _ => true
  | _ => false

/-- The post-build factory function of an engine: receives the
resolved value and the iteration index (its result may be a promise,
modelled by a vPromise result). -/
def FactoryFn : Type := SVal → Nat → SVal

/-- FactoryDefaults / FactoryOptions: the defaults of an engine are
either a static schema value or a function of the iteration index
(either may yield a promise, modelled by vPromise). -/
inductive DefaultsSpec where
  | static (v : SVal)
  | fn (f : Nat → SVal)

/-- Resolution of a DefaultsSpec at an iteration index: a function is
invoked, a static value is used as is. -/
def DefaultsSpec.resolve (d : DefaultsSpec) (iteration : Nat) : SVal :=
  match d with
  | DefaultsSpec.static v => v
  | DefaultsSpec.fn f => f iteration

/-- FactoryBuildOptions of the newer engine: either overrides passed
directly (a static partial schema or a function of the iteration
index) or an OverridesAndFactory bundle with optional overrides and an
optional per-call factory function. -/
inductive NewBuildOptions where
  | direct (ov : DefaultsSpec)
  | bundle (ov : Option DefaultsSpec) (factory : Option FactoryFn)

/--
Modelled from the spec: parseOptions (src/utils/options.ts is not part
of the repository snapshot).  Per the specification (section 4.4, step
3) the per-call options resolve to a pair of overrides and per-call
factory: absent options yield neither; directly-passed overrides are
resolved at the iteration index (a function is invoked with it) and
yield no per-call factory; a bundle resolves its overrides the same
way and passes its factory through.
-/
def parseOptions (options : Option NewBuildOptions) (iteration : Nat) :
    Option SVal × Option FactoryFn :=
  match options with
  | none => (none, none)
  | some (NewBuildOptions.direct ov) => (some (ov.resolve iteration), none)
  | some (NewBuildOptions.bundle ov fac) =>
    (ov.map (fun o => o.resolve iteration), fac)

mutual
/--
Modelled from the spec: the recursive missing-required-path collection
of the newer validator (src/utils/schema.ts is not part of the
repository snapshot).  Per the specification (section 4.2) the
validator walks mapping values recursively, collecting the full dotted
key path of every occurrence of the required sentinel, in order; it
does not descend into arrays, references or generators.
-/
def requiredPathsV (path : String) (v : SVal) : List String :=
  match v with
  | SVal.vReq => [path]
  | SVal.vObj gs => requiredPaths (path ++ ".") gs
  | _ => []
/-- The field loop of the path collection: each field contributes the
paths found under its dotted key, in order. -/
def requiredPaths (pre : String) (fs : List (String × SVal)) :
    List String :=
  match fs with
  | [] => []
  | (k, v) :: rest => requiredPathsV (pre ++ k) v ++ requiredPaths pre rest
end

/--
Modelled from the spec: validateFactorySchema of the newer engine
(src/utils/schema.ts is not part of the repository snapshot).  Per the
specification (section 4.2) it returns the schema unchanged when no
required marker is found and otherwise fails with a single error
joining every missing key path with ", ".  Non-mapping schemas carry
no entries to inspect.
-/
def validateFactorySchema (v : SVal) : Except JsErr SVal :=
  let missing :=
    match v with
    | SVal.vObj fs => requiredPaths "" fs
    | _ => []
  if missing.isEmpty then Except.ok v
  else
    Except.error (JsErr.missingBuildArgs
      ("[interface-forge] missing required build arguments: " ++
        String.intercalate ", " missing))

mutual
/--
Modelled from the spec: the post-resolution sentinel scan used by
validateFactoryResult (src/utils/validators.ts is not part of the
repository snapshot).  Per the specification (section 4.3) the
resolved output must contain no surviving sentinel marker; mapping
values are scanned recursively, mirroring the validator's descent
rule.
-/
def containsMarker : SVal → Bool
  | SVal.vReq => true
  | SVal.vDerived => true
  | SVal.vObj fs => containsMarkerF fs
  | _ => false
/-- The field scan of containsMarker. -/
def containsMarkerF : List (String × SVal) → Bool
  | [] => false
  | (_, v) :: rest => containsMarker v || containsMarkerF rest
end

/--
Modelled from the spec: validateFactoryResult
(src/utils/validators.ts is not part of the repository snapshot): the
post-resolution invariant check that no sentinel marker survives into
the output (specification section 4.3).
-/
def validateFactoryResult (v : SVal) : Except JsErr SVal :=
  if containsMarker v then Except.error JsErr.markerInResult
  else Except.ok v

/-- The newer engine (src/unnamed/part_010, class TypeFactory): a
defaults spec, an optional post-build factory function, and the
mutable iteration counter. -/
structure Engine where
  defaults : DefaultsSpec
  factory : Option FactoryFn
  counter : Nat

/-- resetCounter of the newer engine: sets the counter directly. -/
def resetCounter (e : Engine) (value : Nat) : Engine :=
  { e with counter := value }

/-- The argument record produced by preBuild. -/
structure BuildArgs where
  defaults : SVal
  factory : Option FactoryFn
  iteration : Nat
  overrides : Option SVal

/--
The argument resolution of preBuild (src/unnamed/part_010 lines
747-760): the iteration index is the snapshot of the current counter;
the defaults are resolved at the snapshot; the per-call options are
parsed at the snapshot, the per-call factory defaulting to the
engine's.
-/
def preArgs (e : Engine) (options : Option NewBuildOptions) :
    BuildArgs :=
  let iteration := e.counter
  let defaults := e.defaults.resolve iteration
  let parsed := parseOptions options iteration
  let factory := match parsed.2 with
    | some f => some f
    | none => e.factory
  { defaults := defaults, factory := factory,
    iteration := iteration, overrides := parsed.1 }

/-- The sync-mode promise checks of preBuild: in sync mode a promise
in the resolved defaults fails with the distinct promise-defaults
error, then a promise in the resolved overrides fails with the
distinct promise-overrides error; otherwise, and always in async
mode, the arguments pass through. -/
def preBuildOutcome (isSync : Bool) (args : BuildArgs) :
    Except JsErr BuildArgs :=
  if isSync then
    if isPromiseV args.defaults then Except.error JsErr.promiseDefaults
    else
      match args.overrides with
      | some (SVal.vPromise _) => Except.error JsErr.promiseOverrides
      | _ => Except.ok args
  else Except.ok args

/--
preBuild from src/unnamed/part_010 lines 747-770: snapshots the
current counter as the iteration index and increments the stored
counter before any resolution; resolves the defaults and options at
the snapshot; and applies the sync-mode promise checks.  The counter
increment has already happened on every error path — the second
component of the result is the advanced engine whatever the outcome.
-/
def preBuild (isSync : Bool) (e : Engine)
    (options : Option NewBuildOptions) :
    Except JsErr BuildArgs × Engine :=
  (preBuildOutcome isSync (preArgs e options),
   { e with counter := e.counter + 1 })

/--
postBuild from src/unnamed/part_010 lines 772-782: a promise result of
the factory stage is a distinct error in sync mode and is awaited and
then result-validated in async mode; a plain result is
result-validated directly.
-/
def postBuild (isSync : Bool) (result : SVal) : Except JsErr SVal :=
  match result with
  | SVal.vPromise _ =>
    if isSync then Except.error JsErr.promiseFactory
    else validateFactoryResult (awaited result)
  | r => validateFactoryResult r

/--
performBuild from src/unnamed/part_010 lines 784-794: deep-merges the
defaults with the overrides (an absent overrides argument is the
skipped undefined source), validates the merged schema for required
markers, and walks it with the mode flag.  Object.entries of a
non-mapping merged schema yields nothing to walk (and throws on
null/undefined); every claim under verification exercises
mapping-typed merged schemas.
-/
def performBuild (defaults : SVal) (overrides : Option SVal)
    (iteration : Nat) (isSync : Bool) : Except JsErr SVal := do
  let merged ← (merge defaults [overrides.getD SVal.vUndef]).mapError
    (fun _ => JsErr.mergeConflict)
  let validated ← validateFactorySchema merged
  match validated with
  | SVal.vObj fs =>
    (if isSync then parse_entries_sync fs iteration
     else parse_entries fs iteration).map SVal.vObj
  | SVal.vNull => Except.error JsErr.typeError
  | SVal.vUndef => Except.error JsErr.typeError
  | _ => Except.ok (SVal.vObj [])

/-- Application of the optional factory stage:
factory ? factory(value, iteration) : value. -/
def applyFactory (factory : Option FactoryFn) (value : SVal)
    (iteration : Nat) : SVal :=
  match factory with
  | some f => f value iteration
  | none => value

/--
buildSync from src/unnamed/part_010 lines 813-828: preBuild in sync
mode, then performBuild on the resolved arguments, then the factory
stage and postBuild.  The updated engine (with the counter already
advanced by preBuild) is returned alongside the outcome even when a
stage fails.
-/
def buildSync (e : Engine) (options : Option NewBuildOptions) :
    Except JsErr SVal × Engine :=
  match preBuild true e options with
  | (Except.error err, e2) => (Except.error err, e2)
  | (Except.ok args, e2) =>
    (do
      let value ← performBuild args.defaults args.overrides
        args.iteration true
      postBuild true (applyFactory args.factory value args.iteration),
     e2)

/--
build from src/unnamed/part_010 lines 796-811: preBuild in async mode
(no promise checks), awaiting of the resolved defaults and overrides,
performBuild in async mode, then the factory stage and postBuild in
async mode.
-/
def build (e : Engine) (options : Option NewBuildOptions) :
    Except JsErr SVal × Engine :=
  match preBuild false e options with
  | (Except.error err, e2) => (Except.error err, e2)
  | (Except.ok args, e2) =>
    (do
      let value ← performBuild (awaited args.defaults)
        (args.overrides.map awaited) args.iteration false
      postBuild false (applyFactory args.factory value args.iteration),
     e2)

/-- size consecutive build calls, threading the engine state and
collecting each outcome in order. -/
def buildN : Nat → Option NewBuildOptions → Engine →
    List (Except JsErr SVal) × Engine
  | 0, _, e => ([], e)
  | n + 1, options, e =>
    let (r, e2) := build e options
    let (rs, e3) := buildN n options e2
    (r :: rs, e3)

/-- size consecutive buildSync calls, threading the engine state. -/
def buildSyncN : Nat → Option NewBuildOptions → Engine →
    List (Except JsErr SVal) × Engine
  | 0, _, e => ([], e)
  | n + 1, options, e =>
    let (r, e2) := buildSync e options
    let (rs, e3) := buildSyncN n options e2
    (r :: rs, e3)

/--
batch from src/unnamed/part_010 lines 830-832:
new Array(size).fill(options).map(this.build) invokes build once per
element, in order, with the same options, and performs no counter
reset.  Each async build runs its synchronous prefix (all of preBuild,
including the counter advance) at invocation order; the claims under
verification do not observe interleavings past that prefix, so the
calls are modelled sequentially.
-/
def batch (size : Nat) (options : Option NewBuildOptions) (e : Engine) :
    List (Except JsErr SVal) × Engine :=
  buildN size options e

/--
batchSync from src/unnamed/part_010 lines 834-836:
new Array(size).fill(options).map(this.buildSync) invokes buildSync
once per element, in order, with the same options, with no counter
reset.
-/
def batchSync (size : Nat) (options : Option NewBuildOptions)
    (e : Engine) : List (Except JsErr SVal) × Engine :=
  buildSyncN size options e

/-- The legacy engine (src/src/type-factory.ts, class TypeFactory). -/
structure OldEngine where
  defaults : DefaultsSpec
  factory : Option FactoryFn
  counter : Nat

/-- resetCounter of the legacy engine. -/
def oldResetCounter (e : OldEngine) (value : Nat) : OldEngine :=
  { e with counter := value }

/-- FactoryBuildOptions of the legacy engine: optional overrides (a
static partial schema or a function of the iteration index) and an
optional per-call factory function. -/
structure OldBuildOptions where
  overrides : Option DefaultsSpec
  factory : Option FactoryFn

/-- The own enumerable entries a value contributes to Object.assign:
plain objects contribute their entries; null and undefined are
skipped; other primitives, dates and markers contribute none.  (String
index entries are not modelled; no claim under verification assigns a
string-typed schema.) -/
def assignEntries : SVal → List (String × SVal)
  | SVal.vObj fs => fs
  | _ => []

/-- Object.assign({}, a, b): the entries of both sources written into
a fresh object in order, later writes overwriting earlier ones. -/
def objectAssign2 (a b : SVal) : List (String × SVal) :=
  (assignEntries a ++ assignEntries b).foldl
    (fun out kv => setField out kv.1 kv.2) []

/--
build from src/src/type-factory.ts lines 76-95: snapshots the counter
as the iteration index and increments the stored counter; then awaits
the defaults getter — which reads this.counter, already incremented,
when the defaults are a function (src/src/type-factory.ts lines
23-27) — and the resolved overrides (a function of the snapshot);
shallow-merges them with Object.assign; validates the merged schema at
the top level; walks it asynchronously; and applies the per-call or
engine factory to the parsed value at the snapshot iteration.  The
advanced engine is returned alongside the outcome even when a stage
throws.
-/
def oldBuild (e : OldEngine) (options : Option OldBuildOptions) :
    Except JsErr SVal × OldEngine :=
  let iteration := e.counter
  let e2 : OldEngine := { e with counter := e.counter + 1 }
  let d := awaited (e.defaults.resolve e2.counter)
  let o := match options with
    | none => SVal.vUndef
    | some opts =>
      match opts.overrides with
      | none => SVal.vUndef
      | some ov => awaited (ov.resolve iteration)
  let mergedSchema := objectAssign2 d o
  let fac := match options with
    | some opts =>
      match opts.factory with
      | some f => some f
      | none => e.factory
    | none => e.factory
  (do
    let validated ← validate_schema mergedSchema
    let value ← (parse_entries validated iteration).map SVal.vObj
    Except.ok (awaited (applyFactory fac value iteration)),
   e2)

/-- size consecutive legacy build calls, threading the engine state. -/
def oldBuildN : Nat → Option OldBuildOptions → OldEngine →
    List (Except JsErr SVal) × OldEngine
  | 0, _, e => ([], e)
  | n + 1, options, e =>
    let (r, e2) := oldBuild e options
    let (rs, e3) := oldBuildN n options e2
    (r :: rs, e3)

/--
batch from src/src/type-factory.ts lines 97-102: calls
this.resetCounter() first — resetting the counter to 0 — and then
invokes build once per element of new Array(size), in order, with the
same options.
-/
def oldBatch (size : Nat) (options : Option OldBuildOptions)
    (e : OldEngine) : List (Except JsErr SVal) × OldEngine :=
  oldBuildN size options (oldResetCounter e 0)

/-- The instanceof BuildArgProxy test, as a boolean. -/
def isReqV : SVal → Bool
  | SVal.vReq => true
  | _ => false

mutual
/-- The literal-only fragment over which the walker is the identity:
primitives (null, undefined, booleans, numbers, strings), arrays
(passed through whole as literal leaves), and nested plain mappings of
such values that do not own a key "next" (such a mapping would be
duck-typed as a generator).  Dates are excluded: the walker recurses
into them as object-typed values. -/
def litOnly : SVal → Bool
  | SVal.vNull => true
  | SVal.vUndef => true
  | SVal.vBool _ => true
  | SVal.vInt _ => true
  | SVal.vStr _ => true
  | SVal.vArr _ => true
  | SVal.vObj fs => litOnlyF fs && !hasKey fs "next"
  | _ => false
/-- The field scan of litOnly. -/
def litOnlyF : List (String × SVal) → Bool
  | [] => true
  | (_, v) :: rest => litOnly v && litOnlyF rest
end

/-- An engine whose defaults-as-function reports the iteration index
it received, used as the observable for the counter claims. -/
def obsEngine (c : Nat) : Engine :=
  { defaults := DefaultsSpec.fn
      (fun i => SVal.vObj [("it", SVal.vInt (Int.ofNat i))]),
    factory := none, counter := c }

/-- A legacy engine whose factory function reports the iteration index
it received, used as the observable for the legacy counter claims. -/
def obsOldEngine (c : Nat) : OldEngine :=
  { defaults := DefaultsSpec.static (SVal.vObj []),
    factory := some (fun _ i => SVal.vInt (Int.ofNat i)), counter := c }

/-! ## Lemmas about field access -/

theorem getField_setField_self (fs : List (String × SVal)) (k : String)
    (v : SVal) : getField (setField fs k v) k = some v := by
  induction fs with
  | nil => simp [setField, getField]
  | cons kv rest ih =>
    obtain ⟨k1, v1⟩ := kv
    by_cases h : k1 = k
    · subst h; simp [setField, getField]
    · simp [setField, getField, h, ih]

theorem getField_setField_ne (fs : List (String × SVal)) (k q : String)
    (v : SVal) (h : q ≠ k) :
    getField (setField fs k v) q = getField fs q := by
  induction fs with
  | nil => simp [setField, getField, Ne.symm h]
  | cons kv rest ih =>
    obtain ⟨k1, v1⟩ := kv
    by_cases h1 : k1 = k
    · subst h1
      simp [setField, getField, Ne.symm h]
    · simp only [setField, if_neg h1, getField]
      by_cases h2 : k1 = q <;> simp [h2, ih]

theorem getField_eq_none_of_not_mem (fs : List (String × SVal))
    (k : String) (h : k ∉ fs.map Prod.fst) : getField fs k = none := by
  induction fs with
  | nil => simp [getField]
  | cons kv rest ih =>
    obtain ⟨k1, v1⟩ := kv
    simp only [List.map_cons, List.mem_cons] at h
    push_neg at h
    simp [getField, Ne.symm h.1, ih h.2]

/-- The pointwise characterization of the one-source merge loop: the
value of the merged object at any key q is the per-key rule applied to
the original target value and the source value at q, and keys absent
from the source are untouched. -/
theorem getField_mergeFields (sf : List (String × SVal))
    (hnd : (sf.map Prod.fst).Nodup) (tf : List (String × SVal))
    (q : String) :
    getField (mergeFields tf sf) q =
      match getField sf q with
      | none => getField tf q
      | some sv => some (mergedValue (getField tf q) sv) := by
  induction sf generalizing tf with
  | nil => simp [mergeFields, getField]
  | cons kv rest ih =>
    obtain ⟨k, sv⟩ := kv
    simp only [List.map_cons, List.nodup_cons] at hnd
    rw [mergeFields]
    rw [ih hnd.2]
    by_cases h : k = q
    · subst h
      have hrest : getField rest k = none :=
        getField_eq_none_of_not_mem rest k hnd.1
      simp [hrest, getField, getField_setField_self]
    · have : getField ((k, sv) :: rest) q = getField rest q := by
        simp [getField, h]
      rw [this, getField_setField_ne tf k q _ (fun hh => h hh.symm)]

/-! ## Claim C2: deep merge combines left-to-right, recursing only on
record/record conflicts -/

/--
C2: merge combines the base with the override trees left to right
(each record source is folded into the running output in order, later
sources thus winning on key conflicts); at each key, when both the
existing value and the incoming value are records they are merged
recursively, and otherwise — arrays, dates, markers, primitives, and
any mixed pairing — the incoming value fully replaces the existing
one; and merge of a:(x:1, y:2) with a:(y:3) is a:(x:1, y:3).
-/
theorem merge_left_to_right_recursion :
    (∀ tf s rest, merge (SVal.vObj tf) (s :: rest) =
      merge (SVal.vObj (match s with
        | SVal.vObj sf => mergeFields tf sf
        | _ => tf)) rest) ∧
    (∀ sf, (sf.map Prod.fst).Nodup → ∀ tf q,
      getField (mergeFields tf sf) q =
        match getField sf q with
        | none => getField tf q
        | some sv => some (mergedValue (getField tf q) sv)) ∧
    (∀ tf sf, mergedValue (some (SVal.vObj tf)) (SVal.vObj sf) =
        SVal.vObj (mergeFields tf sf)) ∧
    (∀ tv sv, isRecord (tv.getD SVal.vUndef) = false ∨ isRecord sv = false →
        mergedValue tv sv = sv) ∧
    merge (SVal.vObj [("a", SVal.vObj [("x", SVal.vInt 1),
        ("y", SVal.vInt 2)])])
      [SVal.vObj [("a", SVal.vObj [("y", SVal.vInt 3)])]] =
    Except.ok (SVal.vObj [("a", SVal.vObj [("x", SVal.vInt 1),
        ("y", SVal.vInt 3)])]) := by
  refine ⟨fun tf s rest => ?_, getField_mergeFields, fun tf sf => rfl,
    fun tv sv h => ?_, ?_⟩
  · cases s <;> rfl
  · match tv, sv, h with
    | none, sv, _ => cases sv <;> rfl
    | some t, sv, h =>
      cases t <;> cases sv <;>
        first | rfl | simp [isRecord, Option.getD] at h
  · rfl

/-- Witness for C2: the per-key rule evaluated at a concrete conflict
key (the source value 3 at key y replaces the target value 2). -/
theorem merge_left_to_right_recursion_witness :
    getField (mergeFields [("x", SVal.vInt 1), ("y", SVal.vInt 2)]
      [("y", SVal.vInt 3)]) "y" = some (SVal.vInt 3) :=
  (merge_left_to_right_recursion.2.1 [("y", SVal.vInt 3)] (by simp)
    [("x", SVal.vInt 1), ("y", SVal.vInt 2)] "y").trans rfl

/-! ## Claim C7: merge with a non-mapping base -/

/--
C7: when the base is not mapping-typed, merge returns the base
unchanged exactly when every supplied source is empty or non-mapping,
and fails with the merge type conflict error when some source is a
non-empty mapping; in particular merging undefined into an array and
an empty mapping into a number are no-ops, and merging a non-empty
mapping into a number throws.
-/
theorem merge_nonmapping_target :
    (∀ t sources, isRecord t = false →
      (merge t sources = Except.ok t ↔
        ∀ s ∈ sources, ∀ sf, s = SVal.vObj sf → sf = []) ∧
      ((∃ s ∈ sources, ∃ sf, s = SVal.vObj sf ∧ sf ≠ []) →
        merge t sources = Except.error MergeErr.mergeTypeConflict)) ∧
    merge (SVal.vArr [SVal.vInt 1, SVal.vInt 2, SVal.vInt 3])
      [SVal.vUndef] =
      Except.ok (SVal.vArr [SVal.vInt 1, SVal.vInt 2, SVal.vInt 3]) ∧
    merge (SVal.vInt 5) [SVal.vObj []] = Except.ok (SVal.vInt 5) ∧
    merge (SVal.vInt 5) [SVal.vObj [("a", SVal.vInt 1)]] =
      Except.error MergeErr.mergeTypeConflict := by
  refine ⟨fun t sources ht => ?_, rfl, rfl, rfl⟩
  have hmain : merge t sources =
      if sources.any (fun s =>
        match s with
        | SVal.vObj sf => !sf.isEmpty
        | _ => false) then Except.error MergeErr.mergeTypeConflict
      else Except.ok t := by
    cases t <;> first | rfl | simp [isRecord] at ht
  constructor
  · rw [hmain]
    by_cases hany : sources.any (fun s =>
        match s with
        | SVal.vObj sf => !sf.isEmpty
        | _ => false) = true
    · rw [if_pos hany]
      constructor
      · intro h; simp at h
      · intro hall
        exfalso
        rw [List.any_eq_true] at hany
        obtain ⟨s, hs, hp⟩ := hany
        match s, hp with
        | SVal.vObj sf, hp =>
          have : sf = [] := hall _ hs sf rfl
          subst this
          simp at hp
    · rw [if_neg hany]
      refine ⟨fun _ s hs sf hseq => ?_, fun _ => rfl⟩
      subst hseq
      rw [List.any_eq_true] at hany
      push_neg at hany
      have := hany _ hs
      simpa using this
  · rintro ⟨s, hs, sf, hseq, hne⟩
    rw [hmain, if_pos]
    rw [List.any_eq_true]
    exact ⟨s, hs, by subst hseq; simpa using hne⟩

/-- Witness for C7: the equivalence applied to the concrete no-op case
merge([1,2,3], undefined), whose sole source is non-mapping. -/
theorem merge_nonmapping_target_witness :
    merge (SVal.vArr [SVal.vInt 1, SVal.vInt 2, SVal.vInt 3])
      [SVal.vUndef] =
      Except.ok (SVal.vArr [SVal.vInt 1, SVal.vInt 2, SVal.vInt 3]) :=
  ((merge_nonmapping_target.1
      (SVal.vArr [SVal.vInt 1, SVal.vInt 2, SVal.vInt 3])
      [SVal.vUndef] rfl).1).mpr
    (by intro s hs sf hseq; simp at hs; simp [hs] at hseq)

/-! ## Claim C3: the required-argument validator -/

theorem missing_values_loop_eq (fs : List (String × SVal))
    (acc : List String) :
    fs.foldl
      (fun acc kv =>
        match kv.2 with
        | SVal.vReq => acc ++ [kv.1]
        | _ => acc) acc =
      acc ++ (fs.filter (fun kv => isReqV kv.2)).map Prod.fst := by
  induction fs generalizing acc with
  | nil => simp
  | cons kv rest ih =>
    obtain ⟨k, v⟩ := kv
    cases v <;> simp [List.filter, isReqV, ih]

theorem missing_values_eq (fs : List (String × SVal)) :
    missing_values fs = (fs.filter (fun kv => isReqV kv.2)).map Prod.fst := by
  have h := missing_values_loop_eq fs []
  simpa [missing_values] using h

/--
Counterexample for C3: the schema with a required marker at key a and
another nested at key b.c fails with a message that enumerates only
the top-level key a; the nested path b.c is neither collected nor a
substring of the message, contradicting the claim that every nested
occurrence is enumerated.
-/
theorem validate_schema_misses_nested_path :
    validate_schema
      [("a", SVal.vReq), ("b", SVal.vObj [("c", SVal.vReq)])] =
      Except.error (JsErr.missingBuildArgs
        "[interface-forge] missing required build arguments: a") ∧
    missing_values
      [("a", SVal.vReq), ("b", SVal.vObj [("c", SVal.vReq)])] = ["a"] ∧
    ¬ "b.c".data <:+:
      "[interface-forge] missing required build arguments: a".data := by
  refine ⟨rfl, rfl, ?_⟩
  decide

/--
C3 (amended): the validator inspects only the top level of the schema:
it returns the schema unchanged exactly when no top-level value is the
required sentinel, and otherwise fails with a single error whose
message joins the offending top-level keys, all of them and in order,
with ", "; occurrences nested inside sub-mappings are not detected.
-/
theorem validate_schema_top_level :
    (∀ fs, missing_values fs =
      (fs.filter (fun kv => isReqV kv.2)).map Prod.fst) ∧
    (∀ fs, (∀ kv ∈ fs, isReqV kv.2 = false) →
      validate_schema fs = Except.ok fs) ∧
    (∀ fs, (∃ kv ∈ fs, isReqV kv.2 = true) →
      validate_schema fs = Except.error (JsErr.missingBuildArgs
        ("[interface-forge] missing required build arguments: " ++
          String.intercalate ", "
            ((fs.filter (fun kv => isReqV kv.2)).map Prod.fst)))) := by
  refine ⟨missing_values_eq, fun fs h => ?_, fun fs h => ?_⟩
  · have hm : missing_values fs = [] := by
      rw [missing_values_eq]
      simp only [List.map_eq_nil_iff, List.filter_eq_nil_iff]
      intro kv hkv
      simp [h kv hkv]
    simp [validate_schema, hm]
  · obtain ⟨kv, hkv, hreq⟩ := h
    have hm : (fs.filter (fun kv => isReqV kv.2)).map Prod.fst ≠ [] := by
      simp only [ne_eq, List.map_eq_nil_iff, List.filter_eq_nil_iff]
      intro hall
      have := hall kv hkv
      simp [hreq] at this
    simp only [validate_schema, missing_values_eq]
    rw [if_neg (by simpa [List.isEmpty_iff] using hm)]

/-- Witness for C3 (amended): both branches applied at concrete
schemas — a marker-free schema passes through unchanged, and a schema
with markers at top-level keys a and b fails listing exactly a, b. -/
theorem validate_schema_top_level_witness :
    validate_schema [("x", SVal.vInt 1)] =
      Except.ok [("x", SVal.vInt 1)] ∧
    validate_schema [("a", SVal.vReq), ("x", SVal.vInt 1),
        ("b", SVal.vReq)] =
      Except.error (JsErr.missingBuildArgs
        "[interface-forge] missing required build arguments: a, b") := by
  constructor
  · exact validate_schema_top_level.2.1 [("x", SVal.vInt 1)]
      (by intro kv hkv; simp at hkv; simp [hkv, isReqV])
  · exact (validate_schema_top_level.2.2
      [("a", SVal.vReq), ("x", SVal.vInt 1), ("b", SVal.vReq)]
      ⟨("a", SVal.vReq), by simp, rfl⟩).trans (by rfl)

/-! ## Claim C6: literal pass-through of the schema walker -/

mutual
/-- The asynchronous walker is the identity on literal-only values. -/
theorem parse_value_lit (v : SVal) (it : Nat) (h : litOnly v = true) :
    parse_value v it = Except.ok v := by
  match v, h with
  | SVal.vNull, _ => rfl
  | SVal.vUndef, _ => rfl
  | SVal.vBool _, _ => rfl
  | SVal.vInt _, _ => rfl
  | SVal.vStr _, _ => rfl
  | SVal.vArr _, _ => rfl
  | SVal.vObj fs, h =>
    have h2 : litOnlyF fs = true ∧ hasKey fs "next" = false := by
      have := h
      simp [litOnly] at this
      exact this
    simp [parse_value, h2.2, parse_entries_lit fs it h2.1, Except.map]
/-- The entry loop of the asynchronous walker is the identity on
literal-only schemas. -/
theorem parse_entries_lit (fs : List (String × SVal)) (it : Nat)
    (h : litOnlyF fs = true) : parse_entries fs it = Except.ok fs := by
  match fs, h with
  | [], _ => rfl
  | (k, v) :: rest, h =>
    have h2 : litOnly v = true ∧ litOnlyF rest = true := by
      have := h
      simp [litOnlyF] at this
      exact this
    simp [parse_entries, parse_value_lit v it h2.1,
      parse_entries_lit rest it h2.2, Bind.bind, Except.bind]
end

mutual
/-- The synchronous walker is the identity on literal-only values. -/
theorem parse_value_sync_lit (k : String) (v : SVal) (it : Nat)
    (h : litOnly v = true) : parse_value_sync k v it = Except.ok v := by
  match v, h with
  | SVal.vNull, _ => rfl
  | SVal.vUndef, _ => rfl
  | SVal.vBool _, _ => rfl
  | SVal.vInt _, _ => rfl
  | SVal.vStr _, _ => rfl
  | SVal.vArr _, _ => rfl
  | SVal.vObj fs, h =>
    have h2 : litOnlyF fs = true ∧ hasKey fs "next" = false := by
      have := h
      simp [litOnly] at this
      exact this
    simp [parse_value_sync, h2.2, parse_entries_sync_lit fs it h2.1,
      Except.map]
/-- The entry loop of the synchronous walker is the identity on
literal-only schemas. -/
theorem parse_entries_sync_lit (fs : List (String × SVal)) (it : Nat)
    (h : litOnlyF fs = true) : parse_entries_sync fs it = Except.ok fs := by
  match fs, h with
  | [], _ => rfl
  | (k, v) :: rest, h =>
    have h2 : litOnly v = true ∧ litOnlyF rest = true := by
      have := h
      simp [litOnlyF] at this
      exact this
    simp [parse_entries_sync, parse_value_sync_lit k v it h2.1,
      parse_entries_sync_lit rest it h2.2, Bind.bind, Except.bind]
end

/--
Counterexample for C6: a schema whose only value is a Date literal is
not returned unchanged — the walker treats the Date as an object-typed
value, recurses into its (empty) entry list, and substitutes the empty
mapping — and a schema whose only value is a plain mapping owning the
key "next" is duck-typed as a generator and the resolution throws a
TypeError instead of passing the mapping through, in both modes.
-/
theorem parse_schema_not_identity_on_date :
    parse_entries [("a", SVal.vDate 0)] 0 =
      Except.ok [("a", SVal.vObj [])] ∧
    parse_entries_sync [("a", SVal.vDate 0)] 0 =
      Except.ok [("a", SVal.vObj [])] ∧
    SVal.vObj [] ≠ SVal.vDate 0 ∧
    parse_entries [("b", SVal.vObj [("next", SVal.vInt 1)])] 0 =
      Except.error JsErr.typeError ∧
    parse_entries_sync [("b", SVal.vObj [("next", SVal.vInt 1)])] 0 =
      Except.error JsErr.typeError := by
  refine ⟨rfl, rfl, ?_, rfl, rfl⟩
  intro h
  exact SVal.noConfusion h

/--
C6 (amended): for every schema tree whose values are primitives
(null, undefined, booleans, numbers, strings), arrays, and nested
plain mappings of such values none of which owns a key "next" — no
dates, markers, generators, references, nested engines, or promises —
resolving the schema returns it unchanged, in both the asynchronous
and the synchronous walker, at every iteration index.
-/
theorem parse_schema_literal_identity (fs : List (String × SVal))
    (it : Nat) (h : litOnlyF fs = true) :
    parse_entries fs it = Except.ok fs ∧
    parse_entries_sync fs it = Except.ok fs :=
  ⟨parse_entries_lit fs it h, parse_entries_sync_lit fs it h⟩

/-- Witness for C6 (amended): a concrete mixed literal schema with a
nested mapping passes through unchanged in both modes. -/
theorem parse_schema_literal_identity_witness :
    parse_entries
      [("a", SVal.vInt 1), ("b", SVal.vStr "x"),
       ("c", SVal.vObj [("d", SVal.vArr [SVal.vInt 2, SVal.vNull])])] 7 =
      Except.ok
      [("a", SVal.vInt 1), ("b", SVal.vStr "x"),
       ("c", SVal.vObj [("d", SVal.vArr [SVal.vInt 2, SVal.vNull])])] ∧
    parse_entries_sync
      [("a", SVal.vInt 1), ("b", SVal.vStr "x"),
       ("c", SVal.vObj [("d", SVal.vArr [SVal.vInt 2, SVal.vNull])])] 7 =
      Except.ok
      [("a", SVal.vInt 1), ("b", SVal.vStr "x"),
       ("c", SVal.vObj [("d", SVal.vArr [SVal.vInt 2, SVal.vNull])])] :=
  parse_schema_literal_identity _ 7 rfl

/-! ## Claim C10: null is a literal leaf -/

/-- Inversion of a successful asynchronous entry walk at a cons cell:
the head value and the tail both resolved, and the output is the
resolved head consed onto the resolved tail. -/
theorem parse_entries_cons_ok (k1 : String) (v1 : SVal)
    (rest : List (String × SVal)) (it : Nat) (out : List (String × SVal))
    (h : parse_entries ((k1, v1) :: rest) it = Except.ok out) :
    ∃ pv prest, parse_value v1 it = Except.ok pv ∧
      parse_entries rest it = Except.ok prest ∧
      out = (k1, pv) :: prest := by
  cases hv : parse_value v1 it with
  | error e =>
    exfalso
    have heq : parse_entries ((k1, v1) :: rest) it = Except.error e := by
      simp [parse_entries, hv, Bind.bind, Except.bind]
    rw [heq] at h
    exact Except.noConfusion h
  | ok pv =>
    cases hr : parse_entries rest it with
    | error e =>
      exfalso
      have heq : parse_entries ((k1, v1) :: rest) it = Except.error e := by
        simp [parse_entries, hv, hr, Bind.bind, Except.bind]
      rw [heq] at h
      exact Except.noConfusion h
    | ok prest =>
      refine ⟨pv, prest, rfl, rfl, ?_⟩
      have heq : parse_entries ((k1, v1) :: rest) it =
          Except.ok ((k1, pv) :: prest) := by
        simp [parse_entries, hv, hr, Bind.bind, Except.bind]
      rw [heq] at h
      injection h with h2
      exact h2.symm

/-- Inversion of a successful synchronous entry walk at a cons cell. -/
theorem parse_entries_sync_cons_ok (k1 : String) (v1 : SVal)
    (rest : List (String × SVal)) (it : Nat) (out : List (String × SVal))
    (h : parse_entries_sync ((k1, v1) :: rest) it = Except.ok out) :
    ∃ pv prest, parse_value_sync k1 v1 it = Except.ok pv ∧
      parse_entries_sync rest it = Except.ok prest ∧
      out = (k1, pv) :: prest := by
  cases hv : parse_value_sync k1 v1 it with
  | error e =>
    exfalso
    have heq : parse_entries_sync ((k1, v1) :: rest) it =
        Except.error e := by
      simp [parse_entries_sync, hv, Bind.bind, Except.bind]
    rw [heq] at h
    exact Except.noConfusion h
  | ok pv =>
    cases hr : parse_entries_sync rest it with
    | error e =>
      exfalso
      have heq : parse_entries_sync ((k1, v1) :: rest) it =
          Except.error e := by
        simp [parse_entries_sync, hv, hr, Bind.bind, Except.bind]
      rw [heq] at h
      exact Except.noConfusion h
    | ok prest =>
      refine ⟨pv, prest, rfl, rfl, ?_⟩
      have heq : parse_entries_sync ((k1, v1) :: rest) it =
          Except.ok ((k1, pv) :: prest) := by
        simp [parse_entries_sync, hv, hr, Bind.bind, Except.bind]
      rw [heq] at h
      injection h with h2
      exact h2.symm

/--
C10: a null schema value is copied through unchanged by both walkers —
it is neither recursed into as a nested mapping nor an error — and
whenever the walk of a schema succeeds, every key bound to null in the
input is bound to null at the same position in the output.
-/
theorem parse_schema_null_pass_through :
    (∀ it, parse_value SVal.vNull it = Except.ok SVal.vNull) ∧
    (∀ k it, parse_value_sync k SVal.vNull it = Except.ok SVal.vNull) ∧
    (∀ fs it out, parse_entries fs it = Except.ok out →
      ∀ i k, fs.get? i = some (k, SVal.vNull) →
        out.get? i = some (k, SVal.vNull)) ∧
    (∀ fs it out, parse_entries_sync fs it = Except.ok out →
      ∀ i k, fs.get? i = some (k, SVal.vNull) →
        out.get? i = some (k, SVal.vNull)) := by
  refine ⟨fun it => rfl, fun k it => rfl, ?_, ?_⟩
  · intro fs it out hok i k hget
    induction fs generalizing out i with
    | nil =>
      exfalso
      have hout : Except.ok ([] : List (String × SVal)) =
          Except.ok out := hok
      injection hout with h2
      subst h2
      cases i <;> exact Option.noConfusion hget
    | cons kv rest ih =>
      obtain ⟨k1, v1⟩ := kv
      obtain ⟨pv, prest, hv, hr, hout⟩ :=
        parse_entries_cons_ok k1 v1 rest it out hok
      subst hout
      match i, hget with
      | 0, hget =>
        have hpair : (k1, v1) = (k, SVal.vNull) := by
          have hsome : some (k1, v1) = some (k, SVal.vNull) := hget
          injection hsome
        injection hpair with hk hv1
        subst hk
        subst hv1
        have hpv : pv = SVal.vNull := by
          have h0 : Except.ok SVal.vNull = Except.ok pv := hv
          injection h0 with h2
          exact h2.symm
        subst hpv
        rfl
      | Nat.succ j, hget =>
        exact ih prest hr j (by simpa using hget)
  · intro fs it out hok i k hget
    induction fs generalizing out i with
    | nil =>
      exfalso
      have hout : Except.ok ([] : List (String × SVal)) =
          Except.ok out := hok
      injection hout with h2
      subst h2
      cases i <;> exact Option.noConfusion hget
    | cons kv rest ih =>
      obtain ⟨k1, v1⟩ := kv
      obtain ⟨pv, prest, hv, hr, hout⟩ :=
        parse_entries_sync_cons_ok k1 v1 rest it out hok
      subst hout
      match i, hget with
      | 0, hget =>
        have hpair : (k1, v1) = (k, SVal.vNull) := by
          have hsome : some (k1, v1) = some (k, SVal.vNull) := hget
          injection hsome
        injection hpair with hk hv1
        subst hk
        subst hv1
        have hpv : pv = SVal.vNull := by
          have h0 : Except.ok SVal.vNull = Except.ok pv := hv
          injection h0 with h2
          exact h2.symm
        subst hpv
        rfl
      | Nat.succ j, hget =>
        exact ih prest hr j (by simpa using hget)

/-- Witness for C10: the preservation property applied to a concrete
schema holding null at position 1, discharged by evaluation. -/
theorem parse_schema_null_pass_through_witness :
    ∃ out, parse_entries [("a", SVal.vInt 3), ("b", SVal.vNull)] 0 =
        Except.ok out ∧ out.get? 1 = some ("b", SVal.vNull) :=
  ⟨[("a", SVal.vInt 3), ("b", SVal.vNull)], rfl,
    parse_schema_null_pass_through.2.2.1
      [("a", SVal.vInt 3), ("b", SVal.vNull)] 0
      [("a", SVal.vInt 3), ("b", SVal.vNull)] rfl 1 "b" rfl⟩

/-! ## Claim C8: iterate wraps around -/

theorem succ_mod_eq_wrap (m n : Nat) (hm : 0 < m) :
    (n + 1) % m = if n % m = m - 1 then 0 else n % m + 1 := by
  have hlt : n % m < m := Nat.mod_lt _ hm
  have h1 : (n + 1) % m = ((n % m) + 1) % m := by
    conv_lhs => rw [Nat.add_mod]
    conv_rhs => rw [Nat.add_mod]
    rw [Nat.mod_eq_of_lt hlt]
  by_cases h : n % m = m - 1
  · rw [if_pos h, h1, h, Nat.sub_add_cancel hm, Nat.mod_self]
  · rw [if_neg h, h1]
    exact Nat.mod_eq_of_lt (by omega)

/-- The cursor of an iterate generator over a non-empty backing list
cycles: after k advances it sits at k modulo the length. -/
theorem iterateCursor_mod {α : Type} (L : List α) (hne : L ≠ [])
    (k : Nat) : iterateCursor L k = k % L.length := by
  have hlen : 0 < L.length := List.length_pos.mpr hne
  induction k with
  | zero => simp [iterateCursor]
  | succ n ih =>
    rw [iterateCursor, ih, iterateStep, succ_mod_eq_wrap _ _ hlen]

/--
C8: for every non-empty backing list, the n-th advance (n at least 1)
of the generator produced by iterate yields the element at index
(n - 1) modulo the length: elements are yielded in order and the
cursor wraps back to index 0 after the last element.
-/
theorem iterate_wraparound (α : Type) (L : List α) (hne : L ≠ [])
    (n : Nat) (_hn : 1 ≤ n) :
    iterateYield L n = L.get? ((n - 1) % L.length) := by
  have hc := iterateCursor_mod L hne (n - 1)
  simp [iterateYield, iterateStep, hc]

/-- Witness for C8: iterate([1,2,3]) advanced four times yields
1, 2, 3, 1. -/
theorem iterate_wraparound_witness :
    iterateYield [1, 2, 3] 1 = some 1 ∧
    iterateYield [1, 2, 3] 2 = some 2 ∧
    iterateYield [1, 2, 3] 3 = some 3 ∧
    iterateYield [1, 2, 3] 4 = some 1 :=
  ⟨(iterate_wraparound Nat [1, 2, 3] (by simp) 1 (by norm_num)).trans rfl,
   (iterate_wraparound Nat [1, 2, 3] (by simp) 2 (by norm_num)).trans rfl,
   (iterate_wraparound Nat [1, 2, 3] (by simp) 3 (by norm_num)).trans rfl,
   (iterate_wraparound Nat [1, 2, 3] (by simp) 4 (by norm_num)).trans rfl⟩

/-! ## Claim C9: sample never repeats the previous element -/

/--
C9: an advance of the sample generator over a backing list of length
at least 2 never yields the element yielded by the previous advance
(whatever random draw is made); over a single-element backing list
every advance yields that element; and a first advance (no previous
element) picks directly from the backing list at the random draw.
-/
theorem sample_no_immediate_repeat :
    (∀ (α : Type) [DecidableEq α] (l : List α), 2 ≤ l.length →
      ∀ (p : α) (r : Nat) (y : α),
        sampleStep l (some p) r = some y → y ≠ p) ∧
    (∀ (α : Type) [DecidableEq α] (a : α) (prev : Option α) (r : Nat),
      sampleStep [a] prev r = some a) ∧
    (∀ (α : Type) [DecidableEq α] (l : List α) (r : Nat),
      sampleStep l none r = l.get? (r % l.length)) := by
  refine ⟨?_, ?_, ?_⟩
  · intro α inst l hlen p r y h
    have hnle : ¬ l.length ≤ 1 := by omega
    rw [sampleStep] at h
    simp only [if_neg hnle] at h
    have hmem : y ∈ l.filter (fun x => decide (x ≠ p)) :=
      List.get?_mem h
    have := (List.mem_filter.mp hmem).2
    exact of_decide_eq_true this
  · intro α inst a prev r
    cases prev <;> simp [sampleStep, Nat.mod_one]
  · intro α inst l r
    rfl

/-- Witness for C9: a concrete advance over [1,2,3] with previous
element 2 and draw 5 yields 3, which differs from 2; and every advance
over the single-element list [7] yields 7. -/
theorem sample_no_immediate_repeat_witness :
    (3 : Nat) ≠ 2 ∧ sampleStep [7] (some 7) 9 = some (7 : Nat) :=
  ⟨sample_no_immediate_repeat.1 Nat [1, 2, 3] (by norm_num) 2 5 3 rfl,
   sample_no_immediate_repeat.2.1 Nat 7 (some 7) 9⟩

/-! ## Engine lemmas shared by the façade claims -/

theorem preArgs_iteration (e : Engine) (options : Option NewBuildOptions) :
    (preArgs e options).iteration = e.counter := rfl

theorem preBuild_snd (b : Bool) (e : Engine)
    (options : Option NewBuildOptions) :
    (preBuild b e options).2 = { e with counter := e.counter + 1 } := rfl

theorem preBuildOutcome_ok (b : Bool) (args args2 : BuildArgs)
    (h : preBuildOutcome b args = Except.ok args2) : args2 = args := by
  cases b with
  | false =>
    injection h with h2
    exact h2.symm
  | true =>
    simp only [preBuildOutcome, if_true] at h
    by_cases hd : isPromiseV args.defaults = true
    · rw [if_pos hd] at h
      exact Except.noConfusion h
    · rw [if_neg hd] at h
      rcases hov : args.overrides with _ | v
      · rw [hov] at h
        injection h with h2
        exact h2.symm
      · rw [hov] at h
        cases v <;> first
          | exact Except.noConfusion h
          | (injection h with h2; exact h2.symm)

theorem preBuild_ok_iteration (b : Bool) (e : Engine)
    (options : Option NewBuildOptions) (args : BuildArgs)
    (h : (preBuild b e options).1 = Except.ok args) :
    args.iteration = e.counter := by
  have h2 : args = preArgs e options := preBuildOutcome_ok b _ args h
  rw [h2]
  exact preArgs_iteration e options

theorem buildSync_snd (e : Engine) (options : Option NewBuildOptions) :
    (buildSync e options).2 = { e with counter := e.counter + 1 } := by
  rw [buildSync]
  rcases hpre : preBuild true e options with ⟨out, e2⟩
  have he2 : e2 = { e with counter := e.counter + 1 } := by
    have := preBuild_snd true e options
    rw [hpre] at this
    exact this
  cases out <;> simpa using he2

theorem build_snd (e : Engine) (options : Option NewBuildOptions) :
    (build e options).2 = { e with counter := e.counter + 1 } := by
  rw [build]
  rcases hpre : preBuild false e options with ⟨out, e2⟩
  have he2 : e2 = { e with counter := e.counter + 1 } := by
    have := preBuild_snd false e options
    rw [hpre] at this
    exact this
  cases out <;> simpa using he2

theorem oldBuild_snd (e : OldEngine) (options : Option OldBuildOptions) :
    (oldBuild e options).2 = { e with counter := e.counter + 1 } := rfl

theorem buildSync_obs (c : Nat) :
    buildSync (obsEngine c) none =
      (Except.ok (SVal.vObj [("it", SVal.vInt (Int.ofNat c))]),
       obsEngine (c + 1)) := rfl

theorem build_obs (c : Nat) :
    build (obsEngine c) none =
      (Except.ok (SVal.vObj [("it", SVal.vInt (Int.ofNat c))]),
       obsEngine (c + 1)) := rfl

theorem oldBuild_obs (c : Nat) :
    oldBuild (obsOldEngine c) none =
      (Except.ok (SVal.vInt (Int.ofNat c)), obsOldEngine (c + 1)) := rfl

theorem buildSyncN_obs (n c : Nat) :
    buildSyncN n none (obsEngine c) =
      ((List.range' c n).map
        (fun i => Except.ok (SVal.vObj [("it", SVal.vInt (Int.ofNat i))])),
       obsEngine (c + n)) := by
  induction n generalizing c with
  | zero => simp [buildSyncN, List.range']
  | succ m ih =>
    simp only [buildSyncN, buildSync_obs c, ih (c + 1)]
    have harith : c + 1 + m = c + (m + 1) := by omega
    simp [List.range', harith]

theorem buildN_obs (n c : Nat) :
    buildN n none (obsEngine c) =
      ((List.range' c n).map
        (fun i => Except.ok (SVal.vObj [("it", SVal.vInt (Int.ofNat i))])),
       obsEngine (c + n)) := by
  induction n generalizing c with
  | zero => simp [buildN, List.range']
  | succ m ih =>
    simp only [buildN, build_obs c, ih (c + 1)]
    have harith : c + 1 + m = c + (m + 1) := by omega
    simp [List.range', harith]

theorem oldBuildN_obs (n c : Nat) :
    oldBuildN n none (obsOldEngine c) =
      ((List.range' c n).map
        (fun i => Except.ok (SVal.vInt (Int.ofNat i))),
       obsOldEngine (c + n)) := by
  induction n generalizing c with
  | zero => simp [oldBuildN, List.range']
  | succ m ih =>
    simp only [oldBuildN, oldBuild_obs c, ih (c + 1)]
    have harith : c + 1 + m = c + (m + 1) := by omega
    simp [List.range', harith]

theorem buildSyncN_counter (n : Nat) (options : Option NewBuildOptions)
    (e : Engine) :
    ((buildSyncN n options e).2).counter = e.counter + n := by
  induction n generalizing e with
  | zero => simp [buildSyncN]
  | succ m ih =>
    rcases hb : buildSync e options with ⟨r, e2⟩
    have h := buildSync_snd e options
    rw [hb] at h
    have he2 : e2.counter = e.counter + 1 := by
      have h5 : e2 =
          { defaults := e.defaults, factory := e.factory,
            counter := e.counter + 1 } := h
      rw [h5]
    rcases hbn : buildSyncN m options e2 with ⟨rs, e3⟩
    have h3 := ih e2
    rw [hbn] at h3
    rw [buildSyncN, hb]
    show (match buildSyncN m options e2 with
      | (rs, e3) => (r :: rs, e3)).2.counter = e.counter + (m + 1)
    rw [hbn]
    show e3.counter = e.counter + (m + 1)
    have h4 : e3.counter = e2.counter + m := h3
    omega

theorem buildN_counter (n : Nat) (options : Option NewBuildOptions)
    (e : Engine) :
    ((buildN n options e).2).counter = e.counter + n := by
  induction n generalizing e with
  | zero => simp [buildN]
  | succ m ih =>
    rcases hb : build e options with ⟨r, e2⟩
    have h := build_snd e options
    rw [hb] at h
    have he2 : e2.counter = e.counter + 1 := by
      have h5 : e2 =
          { defaults := e.defaults, factory := e.factory,
            counter := e.counter + 1 } := h
      rw [h5]
    rcases hbn : buildN m options e2 with ⟨rs, e3⟩
    have h3 := ih e2
    rw [hbn] at h3
    rw [buildN, hb]
    show (match buildN m options e2 with
      | (rs, e3) => (r :: rs, e3)).2.counter = e.counter + (m + 1)
    rw [hbn]
    show e3.counter = e.counter + (m + 1)
    have h4 : e3.counter = e2.counter + m := h3
    omega

mutual
/-- The spec-modelled recursive validator finds no path in a
literal-only value. -/
theorem requiredPathsV_lit (path : String) (v : SVal)
    (h : litOnly v = true) : requiredPathsV path v = [] := by
  match v, h with
  | SVal.vNull, _ => rfl
  | SVal.vUndef, _ => rfl
  | SVal.vBool _, _ => rfl
  | SVal.vInt _, _ => rfl
  | SVal.vStr _, _ => rfl
  | SVal.vArr _, _ => rfl
  | SVal.vObj gs, h =>
    have h2 : litOnlyF gs = true := by
      have := h
      simp [litOnly] at this
      exact this.1
    simp [requiredPathsV, requiredPaths_lit (path ++ ".") gs h2]
/-- The spec-modelled recursive validator finds no path in a
literal-only schema. -/
theorem requiredPaths_lit (pre : String) (fs : List (String × SVal))
    (h : litOnlyF fs = true) : requiredPaths pre fs = [] := by
  match fs, h with
  | [], _ => rfl
  | (k, v) :: rest, h =>
    have h2 : litOnly v = true ∧ litOnlyF rest = true := by
      have := h
      simp [litOnlyF] at this
      exact this
    simp [requiredPaths, requiredPathsV_lit (pre ++ k) v h2.1,
      requiredPaths_lit pre rest h2.2]
end

mutual
/-- No sentinel marker occurs in a literal-only value. -/
theorem containsMarker_lit (v : SVal) (h : litOnly v = true) :
    containsMarker v = false := by
  match v, h with
  | SVal.vNull, _ => rfl
  | SVal.vUndef, _ => rfl
  | SVal.vBool _, _ => rfl
  | SVal.vInt _, _ => rfl
  | SVal.vStr _, _ => rfl
  | SVal.vArr _, _ => rfl
  | SVal.vObj gs, h =>
    have h2 : litOnlyF gs = true := by
      have := h
      simp [litOnly] at this
      exact this.1
    simp [containsMarker, containsMarkerF_lit gs h2]
/-- No sentinel marker occurs in a literal-only field list. -/
theorem containsMarkerF_lit (fs : List (String × SVal))
    (h : litOnlyF fs = true) : containsMarkerF fs = false := by
  match fs, h with
  | [], _ => rfl
  | (k, v) :: rest, h =>
    have h2 : litOnly v = true ∧ litOnlyF rest = true := by
      have := h
      simp [litOnlyF] at this
      exact this
    simp [containsMarkerF, containsMarker_lit v h2.1,
      containsMarkerF_lit rest h2.2]
end

theorem validateFactorySchema_lit (fs : List (String × SVal))
    (h : litOnlyF fs = true) :
    validateFactorySchema (SVal.vObj fs) = Except.ok (SVal.vObj fs) := by
  simp [validateFactorySchema, requiredPaths_lit "" fs h]

theorem performBuild_lit (fs : List (String × SVal)) (it : Nat)
    (h : litOnlyF fs = true) :
    performBuild (SVal.vObj fs) none it false =
      Except.ok (SVal.vObj fs) ∧
    performBuild (SVal.vObj fs) none it true =
      Except.ok (SVal.vObj fs) := by
  constructor <;>
    simp [performBuild, merge, List.foldl, Except.mapError,
      validateFactorySchema_lit fs h, parse_entries_lit fs it h,
      parse_entries_sync_lit fs it h, Bind.bind, Except.bind, Except.map]

theorem postBuild_lit_async (fs : List (String × SVal))
    (h : litOnlyF fs = true) :
    postBuild false (SVal.vObj fs) = Except.ok (SVal.vObj fs) := by
  simp [postBuild, validateFactoryResult, containsMarker,
    containsMarkerF_lit fs h]

/-! ## Claim C1: counter snapshot, increment and reset -/

/--
C1: every build call snapshots the current counter as the iteration
index and increments the stored counter before any resolution: the
engine returned by preBuild always carries counter + 1, the argument
record on success carries the old counter as iteration; buildSync,
build and the legacy build all advance the counter by exactly one even
when the outcome is an error (a build that throws still advances); N
consecutive builds on a fresh engine pass iterations 0, 1, ..., N-1 to
the defaults-as-function in order (counter c starts the run at
c, ..., c+N-1); resetCounter(v) sets the counter to v and the next
build then uses iteration v.
-/
theorem build_counter_contract :
    (∀ (b : Bool) (e : Engine) (options : Option NewBuildOptions),
      ((preBuild b e options).2).counter = e.counter + 1) ∧
    (∀ (b : Bool) (e : Engine) (options : Option NewBuildOptions)
      (args : BuildArgs), (preBuild b e options).1 = Except.ok args →
      args.iteration = e.counter) ∧
    (∀ (e : Engine) (options : Option NewBuildOptions),
      ((buildSync e options).2).counter = e.counter + 1 ∧
      ((build e options).2).counter = e.counter + 1) ∧
    (∀ (e : OldEngine) (options : Option OldBuildOptions),
      ((oldBuild e options).2).counter = e.counter + 1) ∧
    (∀ n c, (buildSyncN n none (obsEngine c)).1 =
      (List.range' c n).map
        (fun i => Except.ok (SVal.vObj [("it", SVal.vInt (Int.ofNat i))]))) ∧
    (∀ (e : Engine) (v : Nat), (resetCounter e v).counter = v) ∧
    (∀ c v, (buildSync (resetCounter (obsEngine c) v) none).1 =
      Except.ok (SVal.vObj [("it", SVal.vInt (Int.ofNat v))])) := by
  refine ⟨fun b e o => rfl, preBuild_ok_iteration,
    fun e o => ⟨?_, ?_⟩, fun e o => rfl, fun n c => ?_, fun e v => rfl,
    fun c v => ?_⟩
  · rw [buildSync_snd]
  · rw [build_snd]
  · rw [buildSyncN_obs]
  · show (buildSync (obsEngine v) none).1 =
      Except.ok (SVal.vObj [("it", SVal.vInt (Int.ofNat v))])
    rw [buildSync_obs v]

/-- Witness for C1: the counter facts evaluated at concrete engines,
including a sync build that throws on promise-typed defaults yet still
advances the counter from 7 to 8, and a reset to 11 making the next
build use iteration 11. -/
theorem build_counter_contract_witness :
    ((preBuild true (obsEngine 5) none).2).counter = 6 ∧
    (∃ args, (preBuild true (obsEngine 5) none).1 = Except.ok args ∧
      args.iteration = 5) ∧
    (buildSync (Engine.mk (DefaultsSpec.static (SVal.vPromise SVal.vNull))
      none 7) none).1 = Except.error JsErr.promiseDefaults ∧
    ((buildSync (Engine.mk (DefaultsSpec.static (SVal.vPromise SVal.vNull))
      none 7) none).2).counter = 8 ∧
    (buildSync (resetCounter (obsEngine 3) 11) none).1 =
      Except.ok (SVal.vObj [("it", SVal.vInt 11)]) :=
  ⟨build_counter_contract.1 true (obsEngine 5) none,
   ⟨preArgs (obsEngine 5) none, rfl,
     build_counter_contract.2.1 true (obsEngine 5) none _ rfl⟩,
   rfl,
   (build_counter_contract.2.2.1
     (Engine.mk (DefaultsSpec.static (SVal.vPromise SVal.vNull)) none 7)
     none).1,
   build_counter_contract.2.2.2.2.2.2 3 11⟩

/-! ## Claim C4: promises under the synchronous entry point -/

/--
C4: under the synchronous entry point, a promise in the resolved
defaults fails with the distinct promise-defaults error, a promise in
the resolved overrides fails with the distinct promise-overrides
error, and a promise returned by the post-build factory function fails
with the distinct promise-factory error; the three errors are pairwise
distinct; the asynchronous entry point instead awaits the promise in
each of the three stages and succeeds.
-/
theorem sync_promise_stage_errors :
    (∀ (e : Engine) (options : Option NewBuildOptions),
      isPromiseV (e.defaults.resolve e.counter) = true →
      (buildSync e options).1 = Except.error JsErr.promiseDefaults) ∧
    (∀ (e : Engine) (options : Option NewBuildOptions) (w : SVal),
      isPromiseV (e.defaults.resolve e.counter) = false →
      (parseOptions options e.counter).1 = some (SVal.vPromise w) →
      (buildSync e options).1 = Except.error JsErr.promiseOverrides) ∧
    (∀ c : Nat,
      (buildSync (Engine.mk (DefaultsSpec.static (SVal.vObj []))
        (some (fun v _ => SVal.vPromise v)) c) none).1 =
        Except.error JsErr.promiseFactory) ∧
    (JsErr.promiseDefaults ≠ JsErr.promiseOverrides ∧
      JsErr.promiseDefaults ≠ JsErr.promiseFactory ∧
      JsErr.promiseOverrides ≠ JsErr.promiseFactory) ∧
    (∀ (c : Nat) (fs : List (String × SVal)), litOnlyF fs = true →
      (build (Engine.mk (DefaultsSpec.static
        (SVal.vPromise (SVal.vObj fs))) none c) none).1 =
        Except.ok (SVal.vObj fs)) ∧
    ((build (Engine.mk (DefaultsSpec.static
        (SVal.vObj [("a", SVal.vInt 1)])) none 0)
      (some (NewBuildOptions.direct (DefaultsSpec.static
        (SVal.vPromise (SVal.vObj [("a", SVal.vInt 2)])))))).1 =
      Except.ok (SVal.vObj [("a", SVal.vInt 2)])) ∧
    ((build (Engine.mk (DefaultsSpec.static
        (SVal.vObj [("a", SVal.vInt 1)]))
        (some (fun v _ => SVal.vPromise v)) 0) none).1 =
      Except.ok (SVal.vObj [("a", SVal.vInt 1)])) := by
  refine ⟨?_, ?_, fun c => rfl, ⟨by decide, by decide, by decide⟩,
    ?_, rfl, rfl⟩
  · intro e options h
    have hout : preBuildOutcome true (preArgs e options) =
        Except.error JsErr.promiseDefaults := by
      have hd : (preArgs e options).defaults =
          e.defaults.resolve e.counter := rfl
      simp [preBuildOutcome, hd, h]
    simp [buildSync, preBuild, hout]
  · intro e options w hd hov
    have hov2 : (preArgs e options).overrides =
        some (SVal.vPromise w) := by
      have : (preArgs e options).overrides =
          (parseOptions options e.counter).1 := rfl
      rw [this, hov]
    have hout : preBuildOutcome true (preArgs e options) =
        Except.error JsErr.promiseOverrides := by
      have hd2 : (preArgs e options).defaults =
          e.defaults.resolve e.counter := rfl
      simp [preBuildOutcome, hd2, hd, hov2]
    simp [buildSync, preBuild, hout]
  · intro c fs h
    show (do
      let value ← performBuild (SVal.vObj fs) none c false
      postBuild false (applyFactory none value c)) =
      Except.ok (SVal.vObj fs)
    rw [(performBuild_lit fs c h).1]
    show postBuild false (SVal.vObj fs) = Except.ok (SVal.vObj fs)
    exact postBuild_lit_async fs h

/-- Witness for C4: the three sync failures and an async success,
each at a concrete engine. -/
theorem sync_promise_stage_errors_witness :
    (buildSync (Engine.mk (DefaultsSpec.static (SVal.vPromise SVal.vNull))
      none 0) none).1 = Except.error JsErr.promiseDefaults ∧
    (buildSync (Engine.mk (DefaultsSpec.static (SVal.vObj [])) none 0)
      (some (NewBuildOptions.direct (DefaultsSpec.static
        (SVal.vPromise SVal.vNull))))).1 =
      Except.error JsErr.promiseOverrides ∧
    (buildSync (Engine.mk (DefaultsSpec.static (SVal.vObj []))
      (some (fun v _ => SVal.vPromise v)) 0) none).1 =
      Except.error JsErr.promiseFactory ∧
    (build (Engine.mk (DefaultsSpec.static
      (SVal.vPromise (SVal.vObj [("a", SVal.vInt 1)]))) none 0) none).1 =
      Except.ok (SVal.vObj [("a", SVal.vInt 1)]) :=
  ⟨sync_promise_stage_errors.1 _ none rfl,
   sync_promise_stage_errors.2.1 _ _ SVal.vNull rfl rfl,
   sync_promise_stage_errors.2.2.1 0,
   sync_promise_stage_errors.2.2.2.2.1 0 [("a", SVal.vInt 1)] rfl⟩

/-! ## Claim C5: batch and the counter -/

/--
Counterexample for C5: the legacy batch (src/src/type-factory.ts lines
97-102) resets the counter before starting — a batch of size 1 on an
engine whose counter is 5 passes iteration 0, not the pre-existing 5,
to the factory stage, so the claim that batch never resets the counter
fails on the legacy engine.
-/
theorem oldBatch_resets_counter :
    (oldBatch 1 none (obsOldEngine 5)).1 = [Except.ok (SVal.vInt 0)] ∧
    (Except.ok (SVal.vInt 0) : Except JsErr SVal) ≠
      Except.ok (SVal.vInt 5) := by
  refine ⟨rfl, ?_⟩
  intro h
  injection h with h2
  injection h2 with h3
  exact absurd h3 (by decide)

/--
C5 (amended): the newer batch and batchSync invoke build and buildSync
respectively exactly size times in order with the same options and
never reset the counter — the final counter is the starting counter
plus size, and the builds consume the consecutive iteration indices
continuing from the pre-existing counter value; the legacy batch
instead resets the counter to 0 before starting, so its size builds
always consume iterations 0, ..., size-1 regardless of the counter's
prior value.
-/
theorem batch_counter_continuation :
    (∀ size options e, batchSync size options e =
      buildSyncN size options e) ∧
    (∀ size options e, batch size options e = buildN size options e) ∧
    (∀ size options e,
      ((batchSync size options e).2).counter = e.counter + size ∧
      ((batch size options e).2).counter = e.counter + size) ∧
    (∀ n c, (batchSync n none (obsEngine c)).1 =
      (List.range' c n).map
        (fun i => Except.ok (SVal.vObj [("it", SVal.vInt (Int.ofNat i))]))) ∧
    (∀ n c, (batch n none (obsEngine c)).1 =
      (List.range' c n).map
        (fun i => Except.ok (SVal.vObj [("it", SVal.vInt (Int.ofNat i))]))) ∧
    (∀ size options e, oldBatch size options e = oldBuildN size options
      (OldEngine.mk e.defaults e.factory 0)) ∧
    (∀ n c, (oldBatch n none (obsOldEngine c)).1 =
      (List.range' 0 n).map
        (fun i => Except.ok (SVal.vInt (Int.ofNat i)))) := by
  refine ⟨fun size o e => rfl, fun size o e => rfl,
    fun size o e => ⟨buildSyncN_counter size o e, buildN_counter size o e⟩,
    fun n c => ?_, fun n c => ?_, fun size o e => rfl, fun n c => ?_⟩
  · show (buildSyncN n none (obsEngine c)).1 = _
    rw [buildSyncN_obs]
  · show (buildN n none (obsEngine c)).1 = _
    rw [buildN_obs]
  · show (oldBuildN n none (obsOldEngine 0)).1 = _
    rw [oldBuildN_obs]

/-- Witness for C5 (amended): a batch of 2 on the newer engine with
counter 5 consumes iterations 5 and 6 and leaves the counter at 7. -/
theorem batch_counter_continuation_witness :
    (batchSync 2 none (obsEngine 5)).1 =
      [Except.ok (SVal.vObj [("it", SVal.vInt 5)]),
       Except.ok (SVal.vObj [("it", SVal.vInt 6)])] ∧
    ((batchSync 2 none (obsEngine 5)).2).counter = 7 :=
  ⟨(batch_counter_continuation.2.2.2.1 2 5).trans rfl,
   (batch_counter_continuation.2.2.1 2 none (obsEngine 5)).1⟩

end InterfaceForge
